import Mathlib

/-!
Verification development for a single-file BitTorrent client
(src/client/bencode.py, client.py, communication.py, tracker.py, torrent.py).

Byte strings are modelled as lists of byte values (`List Nat`, each < 256 where
produced by the code). Fallible Python code is modelled with `Except String`,
the string naming the Python exception class raised.
-/

/-- Byte strings: lists of byte values. -/
abbrev Bytes := List Nat

/- ### Bencoding codec (src/client/bencode.py)

Token constants from bencode.py:3-16. Note the source sets TOKEN_LIST to the
byte '1' (49), not 'l'. -/

/-- bencode.py:4, the byte '1'. -/
def TOKEN_LIST : Nat := 49

/-- bencode.py:7, the byte 'i'. -/
def TOKEN_INTEGER : Nat := 105

/-- bencode.py:10, the byte 'd'. -/
def TOKEN_DICT : Nat := 100

/-- bencode.py:13, the byte 'e'. -/
def TOKEN_END : Nat := 101

/-- bencode.py:16, the byte ':'. -/
def TOKEN_STRING_SEPERATOR : Nat := 58

/-- Decoder._peek (bencode.py:55-59): returns `data[index + 1]` (one past the
current position, as written in the source) or None at the end. -/
def Decoder.peek (data : Bytes) (index : Nat) : Option Nat :=
  if index + 1 ≥ data.length then none else data[index + 1]?

/-- Decoder._read_until (bencode.py:79-87): bytes from the current position up
to the first occurrence of the token, the position moving one past the token;
RuntimeError when the token is absent. -/
def Decoder.readUntil (data : Bytes) (index token : Nat) : Except String (Bytes × Nat) :=
  match (data.drop index).findIdx? (fun b => b = token) with
  | none => .error "RuntimeError: token not found"
  | some k => .ok ((data.drop index).take k, index + k + 1)

/-- Python int() on the byte string read for a length: digits only (the sign
and whitespace forms accepted by int() never arise from the inputs considered
here); ValueError otherwise. -/
def Decoder.parseLength (bs : Bytes) : Except String Nat :=
  if bs ≠ [] ∧ bs.all (fun c => 48 ≤ c ∧ c ≤ 57) then
    .ok (bs.foldl (fun acc c => acc * 10 + (c - 48)) 0)
  else .error "ValueError"

/-- Decoder._read (bencode.py:69-74): the next `len` bytes, IndexError when the
data is too short. -/
def Decoder.readBytes (data : Bytes) (index len : Nat) : Except String (Bytes × Nat) :=
  if index + len > data.length then .error "IndexError"
  else .ok ((data.drop index).take len, index + len)

/-- Decoder._decode_string (bencode.py:112-115). -/
def Decoder.decodeString (data : Bytes) (index : Nat) : Except String (Bytes × Nat) :=
  match Decoder.readUntil data index TOKEN_STRING_SEPERATOR with
  | .error e => .error e
  | .ok (numBytes, i1) =>
    match Decoder.parseLength numBytes with
    | .error e => .error e
    | .ok n => Decoder.readBytes data i1 n

/-- Decoder.decode (bencode.py:30-51). The source compares the int `c` with the
bytes-typed token constants, which is always false in Python 3; we model the
byte-value comparison the token names suggest, the reading most favorable to
the round-trip claim. The branches for the integer, list and dictionary tokens
call _consume and then fall off the end of the function, so they return Python
None (modelled as `none`) without decoding anything: decode never calls
_decode_int, decode_list or decode_dict. Result: (decoded value or None, new
index). -/
def Decoder.decode (data : Bytes) (index : Nat) : Except String (Option Bytes × Nat) :=
  match Decoder.peek data index with
  | none => .error "EOFError"
  | some c =>
    if c = TOKEN_INTEGER then .ok (none, index + 1)
    else if c = TOKEN_LIST then .ok (none, index + 1)
    else if c = TOKEN_DICT then .ok (none, index + 1)
    else if c = TOKEN_END then .ok (none, index)
    else if 48 ≤ c ∧ c ≤ 57 then
      match Decoder.decodeString data index with
      | .error e => .error e
      | .ok (s, i) => .ok (some s, i)
    else .error "RuntimeError: invalid token"

/-- A bencodable value as in the claim: byte strings, integers, lists, and
mappings with byte-string keys (dictionaries keep insertion order). -/
inductive BValue where
  | int (n : Int)
  | bstr (bs : Bytes)
  | list (xs : List BValue)
  | dict (kvs : List (Bytes × BValue))

/-- Decimal digits of a natural number, as ASCII bytes. -/
def natDecimal (n : Nat) : Bytes := (Nat.toDigits 10 n).map Char.toNat

/-- str(value) for a Python int, as ASCII bytes. -/
def intDecimal : Int → Bytes
  | .ofNat n => natDecimal n
  | .negSucc m => 45 :: natDecimal (m + 1)

/-- Encoder._encode_int (bencode.py:145-146): 'i' + str(value) + 'e'. -/
def Encoder.encodeInt (v : Int) : Bytes :=
  TOKEN_INTEGER :: intDecimal v ++ [TOKEN_END]

/-- Encoder._encode_bytes (bencode.py:152-157), with its unbalanced parenthesis
(line 154) repaired to the evident intent: str(len(value)) + ':' + value. -/
def Encoder.encodeBytes (bs : Bytes) : Bytes :=
  natDecimal bs.length ++ [TOKEN_STRING_SEPERATOR] ++ bs

/-- Encoder.encode_next (bencode.py:129-143). There is no branch for lists, so
a list falls through to the final else and yields Python None (`none`).
_encode_dict (bencode.py:159-172) calls self._encode_next, a method that does
not exist (the method is named encode_next), so encoding a dictionary raises
AttributeError. -/
def Encoder.encode_next : BValue → Except String (Option Bytes)
  | .int v => .ok (some (Encoder.encodeInt v))
  | .bstr bs => .ok (some (Encoder.encodeBytes bs))
  | .dict _ => .error "AttributeError"
  | .list _ => .ok none

/- ### Peer wire protocol (src/client/communication.py) -/

/-- communication.py:8. -/
def REQUEST_SIZE : Nat := 2 ^ 14

/-- The typed peer messages (communication.py:271-497), as a tagged union.
The source names Choke/Unchoke `stall`/`Unstall`. -/
inductive Message where
  | keepAlive
  | stall
  | unstall
  | interested
  | notInterested
  | have (index : Nat)
  | bitField (bitfield : Bytes)
  | request (index begin length : Nat)
  | piece (index begin : Nat) (block : Bytes)
  | cancel (index begin length : Nat)
deriving DecidableEq

/-- struct.pack '>I': four big-endian bytes. -/
def u32be (n : Nat) : Bytes :=
  [n / 2 ^ 24 % 256, n / 2 ^ 16 % 256, n / 2 ^ 8 % 256, n % 256]

/-- struct.unpack '>I' of an exact four-byte slice. -/
def readU32 (bs : Bytes) : Nat :=
  bs.foldl (fun acc b => acc * 256 + b) 0

/-- Interested.encode (communication.py:360-363). -/
def interestedEncode : Bytes := u32be 1 ++ [2]

/-- Have.encode (communication.py:391-395). -/
def haveEncode (index : Nat) : Bytes := u32be 5 ++ [4] ++ u32be index

/-- Request.encode (communication.py:419-425). -/
def requestEncode (index begin length : Nat) : Bytes :=
  u32be 13 ++ [6] ++ u32be index ++ u32be begin ++ u32be length

/-- Cancel.encode (communication.py:481-487). -/
def cancelEncode (index begin length : Nat) : Bytes :=
  u32be 13 ++ [8] ++ u32be index ++ u32be begin ++ u32be length

/-- Piece.encode (communication.py:451-458): length field 9 + len(block). -/
def pieceEncode (index begin : Nat) (block : Bytes) : Bytes :=
  u32be (9 + block.length) ++ [7] ++ u32be index ++ u32be begin ++ block

/-- The encode method of each message class, as an optional produced frame.
stall, Unstall, NotInterested and KeepAlive (communication.py:326-328,
369-384) define no encode method, so calling .encode() on them raises
AttributeError. BitField.encode (communication.py:337-342) exists but passes
self.bitfield — a pure-Python bitstring.BitArray stored by the constructor —
as the 's' argument of struct.pack, which accepts only bytes/bytearray, so it
raises struct.error before any frame is built. All four are modelled as
`none`: no frame is produced. -/
def msgEncode : Message → Option Bytes
  | .interested => some interestedEncode
  | .have i => some (haveEncode i)
  | .request i b l => some (requestEncode i b l)
  | .piece i b blk => some (pieceEncode i b blk)
  | .cancel i b l => some (cancelEncode i b l)
  | _ => none

/-- Have.decode (communication.py:397-402): struct.unpack '>IbI' requires
exactly 9 bytes, raising struct.error otherwise. -/
def haveDecode (data : Bytes) : Except String Message :=
  if data.length = 9 then .ok (.have (readU32 (data.drop 5)))
  else .error "struct.error"

/-- Request.decode (communication.py:427-433): '>IbIII', exactly 17 bytes. -/
def requestDecode (data : Bytes) : Except String Message :=
  if data.length = 17 then
    .ok (.request (readU32 ((data.drop 5).take 4)) (readU32 ((data.drop 9).take 4))
      (readU32 (data.drop 13)))
  else .error "struct.error"

/-- Cancel.decode (communication.py:489-494): '>IbIII', exactly 17 bytes. -/
def cancelDecode (data : Bytes) : Except String Message :=
  if data.length = 17 then
    .ok (.cancel (readU32 ((data.drop 5).take 4)) (readU32 ((data.drop 9).take 4))
      (readU32 (data.drop 13)))
  else .error "struct.error"

/-- BitField.decode (communication.py:344-351): reads the length field L from
the data, then unpacks with format '>Ib(L-1)s' (size 4 + L; a width of -1 when
L = 0, or a size mismatch, raises struct.error). -/
def bitFieldDecode (data : Bytes) : Except String Message :=
  if 1 ≤ readU32 (data.take 4) ∧ data.length = 4 + readU32 (data.take 4) then
    .ok (.bitField (data.drop 5))
  else .error "struct.error"

/-- Piece.decode (communication.py:460-467): reads the length field L, then
unpacks '>IbII(L-9)s' from data[:L+4] (exactly 13 + (L - 9) bytes needed; a
negative width raises struct.error). -/
def pieceDecode (data : Bytes) : Except String Message :=
  if readU32 (data.take 4) < 9 then .error "struct.error"
  else if (data.take (readU32 (data.take 4) + 4)).length = 13 + (readU32 (data.take 4) - 9) then
    .ok (.piece (readU32 ((data.drop 5).take 4)) (readU32 ((data.drop 9).take 4))
      ((data.drop 13).take (readU32 (data.take 4) - 9)))
  else .error "struct.error"

/-- PeerStreamIterator.parse (communication.py:209-267). The source guard
`len(self.buffer) > 4` is rendered as a match on at least five bytes. A zero
length field returns KeepAlive WITHOUT consuming its frame (the source returns
before defining _consume). The completeness guard compares the total buffer
size with message_length alone (not 4 + message_length), so a frame whose
payload has not fully arrived can reach the per-type decode, which then raises
struct.error. Typed messages consume buffer[:4 + message_length]; an unknown
id logs and consumes nothing. Result: (message or None, remaining buffer).
parseDispatch is the per-id branching (communication.py:231-264): data is
buffer[:4 + message_length], rest the buffer after _consume, buf the
untouched buffer. -/
def parseDispatch (messageId : Nat) (data rest buf : Bytes) :
    Except String (Option Message × Bytes) :=
  if messageId = 5 then (bitFieldDecode data).map fun m => (some m, rest)
  else if messageId = 2 then .ok (some .interested, rest)
  else if messageId = 3 then .ok (some .notInterested, rest)
  else if messageId = 0 then .ok (some .stall, rest)
  else if messageId = 1 then .ok (some .unstall, rest)
  else if messageId = 4 then (haveDecode data).map fun m => (some m, rest)
  else if messageId = 7 then (pieceDecode data).map fun m => (some m, rest)
  else if messageId = 6 then (requestDecode data).map fun m => (some m, rest)
  else if messageId = 8 then (cancelDecode data).map fun m => (some m, rest)
  else .ok (none, buf)

def PeerStreamIterator.parse (buffer : Bytes) : Except String (Option Message × Bytes) :=
  match buffer with
  | b0 :: b1 :: b2 :: b3 :: b4 :: tail =>
    if readU32 [b0, b1, b2, b3] = 0 then .ok (some .keepAlive, b0 :: b1 :: b2 :: b3 :: b4 :: tail)
    else if (b0 :: b1 :: b2 :: b3 :: b4 :: tail).length ≥ readU32 [b0, b1, b2, b3] then
      parseDispatch b4
        ((b0 :: b1 :: b2 :: b3 :: b4 :: tail).take (4 + readU32 [b0, b1, b2, b3]))
        ((b0 :: b1 :: b2 :: b3 :: b4 :: tail).drop (4 + readU32 [b0, b1, b2, b3]))
        (b0 :: b1 :: b2 :: b3 :: b4 :: tail)
    else .ok (none, b0 :: b1 :: b2 :: b3 :: b4 :: tail)
  | _ => .ok (none, buffer)

/- ### Piece and block model (src/client/client.py) -/

/-- Block (client.py:109-119): status 0 = Missing, 1 = Pending, 2 = Retrieved;
data is None (modelled []) until retrieved. -/
structure BlockM where
  piece : Nat
  offset : Nat
  length : Nat
  status : Nat
  data : Bytes
deriving DecidableEq

/-- Block.__init__: status Missing, no data. -/
def newBlock (piece offset length : Nat) : BlockM :=
  ⟨piece, offset, length, 0, []⟩

/-- Piece (client.py:122-176). -/
structure PieceM where
  index : Nat
  blocks : List BlockM
  hash : Bytes
deriving DecidableEq

/-- math.ceil(a / b) for natural inputs and positive b. -/
def ceilDiv (a b : Nat) : Nat := (a + b - 1) / b

/-- The torrent metainfo fields _initiate_pieces reads (torrent.py). -/
structure TorrentM where
  pieces : List Bytes
  pieceLength : Nat
  totalSize : Nat

/-- Overwrites the length of the last block (client.py:213-216: blocks[-1]
assignment); the empty case is unreachable under its guard. -/
def setLastLength (len : Nat) : List BlockM → List BlockM
  | [] => []
  | [b] => [{ b with length := len }]
  | b :: rest => b :: setLastLength len rest

/-- PieceManager._initiate_pieces (client.py:195-218). Every piece except the
last gets ceil(piece_length / REQUEST_SIZE) blocks of REQUEST_SIZE bytes. The
last piece gets ceil(last_length / REQUEST_SIZE) blocks where last_length =
total_size % piece_length, the final block shortened to last_length %
REQUEST_SIZE when that is non-zero. -/
def initiatePieces (t : TorrentM) : List PieceM :=
  let totalPieces := t.pieces.length
  let stdPieceBlocks := ceilDiv t.pieceLength REQUEST_SIZE
  t.pieces.enum.map fun (index, hashValue) =>
    if index < totalPieces - 1 then
      ⟨index, (List.range stdPieceBlocks).map fun o => newBlock index (o * REQUEST_SIZE) REQUEST_SIZE,
        hashValue⟩
    else
      let lastLength := t.totalSize % t.pieceLength
      let numBlocks := ceilDiv lastLength REQUEST_SIZE
      let blocks := (List.range numBlocks).map fun o => newBlock index (o * REQUEST_SIZE) REQUEST_SIZE
      let blocks := if lastLength % REQUEST_SIZE > 0 then
          setLastLength (lastLength % REQUEST_SIZE) blocks
        else blocks
      ⟨index, blocks, hashValue⟩

/-- PendingRequest (client.py:178): a collections.namedtuple, hence immutable. -/
structure PendingReq where
  block : BlockM
  added : Nat
deriving DecidableEq

/-- client.py:189. -/
def maxPendingTime : Nat := 300 * 1000

/-- The PieceManager state (client.py:181-192): peers is the insertion-ordered
dict peer_id -> bitfield; total_pieces is fixed at construction. -/
structure PMState where
  peers : List (Nat × List Bool)
  pendingBlocks : List PendingReq
  missingPieces : List PieceM
  ongoingPieces : List PieceM
  havePieces : List PieceM
  totalPieces : Nat
deriving DecidableEq

/-- Python dict assignment peers[peer_id] = bitfield: replaces in place or
appends a new key. -/
def dictSet (k : Nat) (v : List Bool) : List (Nat × List Bool) → List (Nat × List Bool)
  | [] => [(k, v)]
  | (k', v') :: rest => if k' = k then (k, v) :: rest else (k', v') :: dictSet k v rest

/-- PieceManager.add_peer (client.py:242-243). -/
def addPeer (peerId : Nat) (bitfield : List Bool) (s : PMState) : PMState :=
  { s with peers := dictSet peerId bitfield s.peers }

/-- Indexed read of a bitfield (bitstring.BitArray): IndexError out of range. -/
def bitGet (bf : List Bool) (index : Nat) : Except String Bool :=
  match bf[index]? with
  | some b => .ok b
  | none => .error "IndexError"

/-- Indexed write bitfield[index] = 1: IndexError out of range. -/
def bitSet (index : Nat) (bf : List Bool) : Except String (List Bool) :=
  if index < bf.length then .ok (bf.set index true) else .error "IndexError"

/-- PieceManager.update_peer (client.py:246-248): no-op for unknown peers;
sets the bit for known ones (state unchanged when the write raises). -/
def updatePeer (peerId index : Nat) (s : PMState) : PMState × Except String Unit :=
  match List.lookup peerId s.peers with
  | none => (s, .ok ())
  | some bf =>
    match bitSet index bf with
    | .error e => (s, .error e)
    | .ok bf' => ({ s with peers := dictSet peerId bf' s.peers }, .ok ())

/-- PieceManager.remove_peer (client.py:251-253): del peers[peer_id]. -/
def removePeer (peerId : Nat) (s : PMState) : PMState :=
  { s with peers := s.peers.eraseP (fun kv => kv.1 == peerId) }

/-- PieceManager._expired_requests (client.py:315-327). PendingRequest is a
namedtuple, so the re-stamp `request.added = current` raises AttributeError
and the `return request.block` after it is unreachable: this scan either
finds no expired request the peer can serve (None) or raises. -/
def expiredRequests (bf : List Bool) (now : Nat) : List PendingReq → Except String (Option BlockM)
  | [] => .ok none
  | r :: rest =>
    match bitGet bf r.block.piece with
    | .error e => .error e
    | .ok true =>
      if r.added + maxPendingTime < now then .error "AttributeError"
      else expiredRequests bf now rest
    | .ok false => expiredRequests bf now rest

/-- The block list update of Piece.next_request (client.py:139-144): the first
Missing block becomes Pending and is returned. -/
def blocksNextRequest : List BlockM → Option (BlockM × List BlockM)
  | [] => none
  | b :: rest =>
    if b.status = 0 then some ({ b with status := 1 }, { b with status := 1 } :: rest)
    else (blocksNextRequest rest).map fun (blk, rest') => (blk, b :: rest')

/-- Piece.next_request, returning the updated piece alongside the block. -/
def pieceNextRequest (p : PieceM) : Option (BlockM × PieceM) :=
  match blocksNextRequest p.blocks with
  | none => none
  | some (b, bs) => some (b, { p with blocks := bs })

/-- PieceManager._next_ongoing (client.py:330-339): the first ongoing piece the
peer has that still offers a block; the updated ongoing list is returned. -/
def nextOngoing (bf : List Bool) : List PieceM → Except String (Option (BlockM × List PieceM))
  | [] => .ok none
  | p :: rest =>
    match bitGet bf p.index with
    | .error e => .error e
    | .ok true =>
      match pieceNextRequest p with
      | some (blk, p') => .ok (some (blk, p' :: rest))
      | none =>
        match nextOngoing bf rest with
        | .error e => .error e
        | .ok none => .ok none
        | .ok (some (blk, rest')) => .ok (some (blk, p :: rest'))
    | .ok false =>
      match nextOngoing bf rest with
      | .error e => .error e
      | .ok none => .ok none
      | .ok (some (blk, rest')) => .ok (some (blk, p :: rest'))

/-- The inner loop of _get_rarest_piece (client.py:347-349): how many known
peers have the piece. -/
def countPeersHaving (peers : List (Nat × List Bool)) (index : Nat) : Except String Nat :=
  match peers with
  | [] => .ok 0
  | (_, bf) :: rest =>
    match bitGet bf index with
    | .error e => .error e
    | .ok b =>
      match countPeersHaving rest index with
      | .error e => .error e
      | .ok c => .ok (if b then c + 1 else c)

/-- The piece_count defaultdict of _get_rarest_piece (client.py:343-349), in
first-encounter order, restricted to missing pieces the requesting peer has. -/
def buildCounts (peers : List (Nat × List Bool)) (bf : List Bool) :
    List PieceM → Except String (List (PieceM × Nat))
  | [] => .ok []
  | p :: rest =>
    match bitGet bf p.index with
    | .error e => .error e
    | .ok false => buildCounts peers bf rest
    | .ok true =>
      match countPeersHaving peers p.index with
      | .error e => .error e
      | .ok c =>
        match buildCounts peers bf rest with
        | .error e => .error e
        | .ok cs => .ok ((p, c) :: cs)

/-- Python min(keys, key=count): keeps the first key with the strictly
smallest count. -/
def minByCountAux (best : PieceM × Nat) : List (PieceM × Nat) → PieceM
  | [] => best.1
  | e :: rest => if e.2 < best.2 then minByCountAux e rest else minByCountAux best rest

/-- min over the piece_count keys; None stands for the ValueError that
min raises on an empty sequence. -/
def minByCount : List (PieceM × Nat) → Option PieceM
  | [] => none
  | e :: rest => some (minByCountAux e rest)

/-- PieceManager._get_rarest_piece (client.py:342-354): ValueError when no
missing piece is available to this peer (min of an empty dict); otherwise the
rarest piece together with the missing list it was removed from. -/
def getRarestPiece (peers : List (Nat × List Bool)) (bf : List Bool) (missing : List PieceM) :
    Except String (PieceM × List PieceM) :=
  match buildCounts peers bf missing with
  | .error e => .error e
  | .ok counts =>
    match minByCount counts with
    | none => .error "ValueError"
    | some rarest => .ok (rarest, missing.erase rarest)

/-- PieceManager.next_request (client.py:257-271): expired re-request, then
ongoing pieces, then the rarest missing piece (moved to ongoing; only the
ongoing path records a PendingRequest). Result: (state after the call, block
or None or the exception that escaped). -/
def nextRequest (peerId now : Nat) (s : PMState) : PMState × Except String (Option BlockM) :=
  match List.lookup peerId s.peers with
  | none => (s, .ok none)
  | some bf =>
    match expiredRequests bf now s.pendingBlocks with
    | .error e => (s, .error e)
    | .ok (some blk) => (s, .ok (some blk))
    | .ok none =>
      match nextOngoing bf s.ongoingPieces with
      | .error e => (s, .error e)
      | .ok (some (blk, ongoing')) =>
        ({ s with ongoingPieces := ongoing',
                  pendingBlocks := s.pendingBlocks ++ [⟨blk, now⟩] }, .ok (some blk))
      | .ok none =>
        match getRarestPiece s.peers bf s.missingPieces with
        | .error e => (s, .error e)
        | .ok (rarest, missing') =>
          match pieceNextRequest rarest with
          | some (blk, rarest') =>
            ({ s with missingPieces := missing',
                      ongoingPieces := s.ongoingPieces ++ [rarest'] }, .ok (some blk))
          | none =>
            ({ s with missingPieces := missing',
                      ongoingPieces := s.ongoingPieces ++ [rarest] }, .ok none)

/-- block_received's removal of the first matching pending request
(client.py:283-287). -/
def removePendingFirst (pieceIndex blockOffset : Nat) : List PendingReq → List PendingReq
  | [] => []
  | r :: rest =>
    if r.block.piece = pieceIndex ∧ r.block.offset = blockOffset then rest
    else r :: removePendingFirst pieceIndex blockOffset rest

/-- Piece.block_received (client.py:149-157): the first block with the offset
becomes Retrieved and stores the data; no match logs a warning only. -/
def blocksReceive (blockOffset : Nat) (data : Bytes) : List BlockM → List BlockM
  | [] => []
  | b :: rest =>
    if b.offset = blockOffset then { b with status := 2, data := data } :: rest
    else b :: blocksReceive blockOffset data rest

/-- Piece.is_complete (client.py:161-163). -/
def pieceIsComplete (p : PieceM) : Bool := p.blocks.all (fun b => b.status == 2)

/-- Piece.data (client.py:172-176): blocks sorted by offset, concatenated. -/
def pieceData (p : PieceM) : Bytes :=
  ((p.blocks.mergeSort (fun a b => a.offset ≤ b.offset)).map (fun b => b.data)).flatten

/-- Piece.reset (client.py:134-136). -/
def pieceReset (p : PieceM) : PieceM :=
  { p with blocks := p.blocks.map fun b => { b with status := 0 } }

/-- The ongoing-pieces walk of PieceManager.block_received (client.py:289-309):
the first ongoing piece with the index receives the block; a completed piece
whose SHA-1 matches moves to have (second component), a mismatch resets its
blocks to Missing in place. The sha1 function is a parameter of the model. -/
def receiveIntoOngoing (sha1 : Bytes → Bytes) (pieceIndex blockOffset : Nat) (data : Bytes) :
    List PieceM → List PieceM × List PieceM
  | [] => ([], [])
  | p :: rest =>
    if p.index = pieceIndex then
      let p' := { p with blocks := blocksReceive blockOffset data p.blocks }
      if pieceIsComplete p' then
        if sha1 (pieceData p') = p'.hash then (rest, [p'])
        else (pieceReset p' :: rest, [])
      else (p' :: rest, [])
    else
      (p :: (receiveIntoOngoing sha1 pieceIndex blockOffset data rest).1,
        (receiveIntoOngoing sha1 pieceIndex blockOffset data rest).2)

/-- PieceManager.block_received (client.py:276-311). -/
def blockReceived (sha1 : Bytes → Bytes) (pieceIndex blockOffset : Nat) (data : Bytes)
    (s : PMState) : PMState :=
  { s with
    pendingBlocks := removePendingFirst pieceIndex blockOffset s.pendingBlocks,
    ongoingPieces := (receiveIntoOngoing sha1 pieceIndex blockOffset data s.ongoingPieces).1,
    havePieces := s.havePieces ++ (receiveIntoOngoing sha1 pieceIndex blockOffset data s.ongoingPieces).2 }

/-- The piece indices across the three inventories, in list order. -/
def pmIndices (s : PMState) : List Nat :=
  (s.missingPieces ++ s.ongoingPieces ++ s.havePieces).map PieceM.index

/-- The partition invariant of the claim: every piece index appears in exactly
one of missing/ongoing/have, and the three lengths sum to total_pieces. -/
def PMInv (s : PMState) : Prop :=
  List.Perm (pmIndices s) (List.range s.totalPieces)

/- ### Peer session (src/client/communication.py, PeerConnection) -/

/-- The set-of-strings my_state/peer_state entries (communication.py:27-28). -/
inductive PeerFlag where
  | stalled
  | interested
  | pendingRequest
  | stopped
deriving DecidableEq

/-- The post-message request step of PeerConnection._start (communication.py:
88-93) with _request_piece (125-137) inlined: when the local flags lack
stalled, contain interested and lack pending_request, `pending_request` is
appended BEFORE the scheduler is consulted; a returned block becomes a Request
(piece, offset, length) written to the peer, and nothing removes the flag when
no block is returned. Result: (my_state after, Request payload if written). -/
def requestStep (myState : List PeerFlag) (next : Option BlockM) :
    List PeerFlag × Option (Nat × Nat × Nat) :=
  if PeerFlag.stalled ∈ myState then (myState, none)
  else if PeerFlag.interested ∈ myState then
    if PeerFlag.pendingRequest ∈ myState then (myState, none)
    else (myState ++ [PeerFlag.pendingRequest], next.map fun b => (b.piece, b.offset, b.length))
  else (myState, none)

/-- Python list.remove: the first equal element is removed; ValueError when the
element is absent. -/
def pyRemove (xs : List PeerFlag) (a : PeerFlag) : Except String (List PeerFlag) :=
  if a ∈ xs then .ok (xs.erase a) else .error "ValueError"

/-- What becomes of the session when one Piece message is handled. -/
inductive PieceOutcome where
  | delivered (newState : List PeerFlag)
  | closed
deriving DecidableEq

/-- Handling of an incoming Piece message in PeerConnection._start
(communication.py:76-82): my_state.remove('pending_request') runs BEFORE
on_block_cb, so when it raises the callback never runs; the exception reaches
the generic handler (communication.py:101-105), which calls cancel() and
re-raises, closing the session. `delivered` carries the state in which the
scheduler callback was then invoked. -/
def handlePieceMessage (myState : List PeerFlag) : PieceOutcome :=
  match pyRemove myState PeerFlag.pendingRequest with
  | .ok s => .delivered s
  | .error _ => .closed

/- ### Tracker (src/client/tracker.py) -/

/-- The fate of one Tracker.connect call. -/
inductive TrackerOutcome where
  | connectionError (status : Nat)
  | attributeError
  | trackerFailure (msg : Bytes)
  | response (body : Bytes)
deriving DecidableEq

/-- The bytes of the key 'failure reason'. -/
def failureReasonKey : Bytes :=
  [102, 97, 105, 108, 117, 114, 101, 32, 114, 101, 97, 115, 111, 110]

/-- TrackerResponse.failure (tracker.py:13-17): the value under 'failure
reason' in the decoded response dictionary, when present. connect never
constructs a TrackerResponse, so this property is dead code. -/
def trackerResponseFailure (response : List (Bytes × Bytes)) : Option Bytes :=
  List.lookup failureReasonKey response

/-- Tracker.connect (tracker.py:68-97): a non-200 status raises
ConnectionError('Unable to connect to tracker: ...'); on a 200 response the
next line calls self.raise_for_error(data), but the Tracker class defines no
method of that name, so every 200 response raises AttributeError (the line
after it also references the undefined name `bencoding`); the success return
is unreachable. -/
def trackerConnect (status : Nat) (_body : Bytes) : TrackerOutcome :=
  if status ≠ 200 then .connectionError status
  else .attributeError

/- ### Concrete states for evaluation -/

/-- A one-block piece with index 0. -/
def pieceA : PieceM := ⟨0, [newBlock 0 0 16384], [11]⟩

/-- A one-block piece with index 1. -/
def pieceB : PieceM := ⟨1, [newBlock 1 0 16384], [22]⟩

/-- A scheduler state whose only peer (id 0) is registered with an all-zero
bitfield; two pieces are missing. -/
def pmEmptyBitfieldState : PMState :=
  ⟨[(0, [false, false])], [], [pieceA, pieceB], [], [], 2⟩

/-- A scheduler state with one pending request for piece 0 issued at time 0 by
peer 0, whose bitfield contains that piece. -/
def pmExpiredState : PMState :=
  ⟨[(0, [true])], [⟨⟨0, 0, 16384, 1, []⟩, 0⟩], [], [⟨0, [⟨0, 0, 16384, 1, []⟩], [11]⟩], [], 1⟩

/-- A small scheduler state satisfying the partition invariant. -/
def pmInvState : PMState := ⟨[(0, [true, true])], [], [pieceA, pieceB], [], [], 2⟩

/- ### Theorems -/

/-- C1: decoding the bytes produced by encoding x returns x, for every
bencodable x. This fails on the code: encoding the integer 42 yields the bytes
of "i42e", but Decoder.decode dispatches on data[index + 1] (the _peek
off-by-one), sees the digit '4', takes the byte-string branch and raises
RuntimeError looking for a ':' separator; a byte string such as b"spam"
encodes to "4:spam", whose second byte ':' matches no token and raises
RuntimeError as well. No value round-trips. -/
theorem bencode_roundtrip_fails_for_int_42 :
    Encoder.encode_next (BValue.int 42) = .ok (some [105, 52, 50, 101]) ∧
    Decoder.decode [105, 52, 50, 101] 0 = .error "RuntimeError: token not found" ∧
    Encoder.encode_next (BValue.bstr [115, 112, 97, 109]) =
      .ok (some [52, 58, 115, 112, 97, 109]) ∧
    Decoder.decode [52, 58, 115, 112, 97, 109] 0 = .error "RuntimeError: invalid token" :=
  ⟨rfl, rfl, rfl, rfl⟩

/-- C3: parse should return None when the buffer holds fewer than 4 + length
bytes, and should consume exactly the frame of any returned message. The code
fails both: (1) the buffer 00 00 00 05 04 (the first 5 bytes of a Have frame,
fewer than the 9 = 4 + 5 needed) passes the `len(buffer) >= message_length`
check because the header is not counted, and Have.decode raises struct.error
on the truncated frame; (2) a complete KeepAlive frame is returned without its
4 frame bytes being consumed. -/
theorem parse_truncated_have_frame_raises :
    PeerStreamIterator.parse [0, 0, 0, 5, 4] = .error "struct.error" ∧
    PeerStreamIterator.parse [0, 0, 0, 0, 9] = .ok (some .keepAlive, [0, 0, 0, 0, 9]) :=
  ⟨rfl, rfl⟩

/-- C9 counterexample: the claim "decode(encode(M)) = M for each typed message"
fails as stated at M = NotInterested and at M = BitField([0xff]):
NotInterested defines no encode method, so M.encode() raises AttributeError,
and BitField.encode raises struct.error because struct.pack's 's' field
rejects the pure-Python bitstring.BitArray it is given. Neither call produces
a byte frame (modelled `none`), so no frame decodes back to M. -/
theorem message_roundtrip_counterexample :
    msgEncode .notInterested = none ∧
    msgEncode (.bitField [255]) = none :=
  ⟨rfl, rfl⟩

/-- C2: the final piece's blocks should sum to that piece's size — the full
piece_length (standard block layout) when total_size mod piece_length = 0,
otherwise the remainder with ceiling division. The code fails the first part:
for a torrent of two 16384-byte pieces (total_size 32768, remainder 0),
_initiate_pieces computes last_length = 0 and ceil(0 / 16384) = 0 blocks, so
the final piece gets an empty block list whose lengths sum to 0 instead of a
full 16384-byte layout. -/
theorem initiate_pieces_empty_final_piece :
    initiatePieces ⟨[[11], [22]], 16384, 32768⟩ =
      [⟨0, [⟨0, 0, 16384, 0, []⟩], [11]⟩, ⟨1, [], [22]⟩] ∧
    ((initiatePieces ⟨[[11], [22]], 16384, 32768⟩).map
      (fun p => (p.blocks.map (fun b => b.length)).sum)).getLast? = some 0 :=
  ⟨rfl, rfl⟩

/-- C4: a pending request older than max_pending_ms whose piece is in the
peer's bitfield should be re-stamped and its block returned, still Pending and
without a duplicate. The code instead raises: PendingRequest is a namedtuple,
so the re-stamp `request.added = current` (client.py:325) assigns to an
immutable tuple and raises AttributeError; at now = 300001 with a request
issued at 0 next_request propagates the exception and returns no block. -/
theorem expired_request_restamp_raises :
    expiredRequests [true] 300001 [⟨⟨0, 0, 16384, 1, []⟩, 0⟩] = .error "AttributeError" ∧
    (nextRequest 0 300001 pmExpiredState).2 = .error "AttributeError" ∧
    (nextRequest 0 300001 pmExpiredState).1 = pmExpiredState :=
  ⟨rfl, rfl, rfl⟩

/-- C7: next_request for a peer registered with an all-zero bitfield should
return None without raising. The code reaches _get_rarest_piece, whose
piece_count dict stays empty because the peer has no piece, and min() over the
empty sequence raises ValueError (client.py:351), which propagates out of
next_request. -/
theorem next_request_empty_bitfield_raises :
    (nextRequest 0 0 pmEmptyBitfieldState).2 = .error "ValueError" ∧
    (nextRequest 0 0 pmEmptyBitfieldState).1 = pmEmptyBitfieldState :=
  ⟨rfl, rfl⟩

/-- C8: connect should raise TrackerUnreachable on a non-200 status (the code
does raise ConnectionError there), fail with TrackerFailure(message) when the
body carries 'failure reason', and otherwise return the parsed response. The
code never does the latter two: on every 200 response the call
self.raise_for_error(data) raises AttributeError because Tracker defines no
such method (and the next line references the undefined name `bencoding`),
even though TrackerResponse.failure would have extracted the message. -/
theorem tracker_connect_diverges :
    trackerConnect 404 [] = .connectionError 404 ∧
    trackerConnect 200 failureReasonKey = .attributeError ∧
    trackerResponseFailure [(failureReasonKey, [110, 111])] = some [110, 111] ∧
    (∀ status body msg, trackerConnect status body ≠ .trackerFailure msg) ∧
    (∀ status body resp, trackerConnect status body ≠ .response resp) := by
  refine ⟨rfl, rfl, rfl, ?_, ?_⟩ <;>
    · intro status body x
      unfold trackerConnect
      split <;> simp

/-- C6 counterexample: with local flags exactly [interested] (no stalled, no
pending_request) and the scheduler returning no block, the claim says the
flags do not contain pending_request after the request step; the code appends
pending_request before calling next_request and nothing removes it. -/
theorem request_step_counterexample :
    requestStep [PeerFlag.interested] none =
      ([PeerFlag.interested, PeerFlag.pendingRequest], none) ∧
    PeerFlag.pendingRequest ∈ (requestStep [PeerFlag.interested] none).1 := by
  exact ⟨rfl, by decide⟩

/-- C6 amended: in an Active session whose local flags contain interested but
not stalled and not pending_request, when the scheduler's next_request returns
no block the request step leaves pending_request SET — the flag is appended
before the scheduler is consulted and is not removed — and no Request message
is written. -/
theorem request_step_sets_pending_without_block (myState : List PeerFlag)
    (h1 : PeerFlag.interested ∈ myState) (h2 : PeerFlag.stalled ∉ myState)
    (h3 : PeerFlag.pendingRequest ∉ myState) :
    (requestStep myState none).1 = myState ++ [PeerFlag.pendingRequest] ∧
    PeerFlag.pendingRequest ∈ (requestStep myState none).1 ∧
    (requestStep myState none).2 = none := by
  simp [requestStep, h1, h2, h3]

theorem request_step_sets_pending_without_block_witness :
    (PeerFlag.interested ∈ [PeerFlag.interested] ∧
      PeerFlag.stalled ∉ [PeerFlag.interested] ∧
      PeerFlag.pendingRequest ∉ [PeerFlag.interested]) ∧
    ((requestStep [PeerFlag.interested] none).1 =
        [PeerFlag.interested] ++ [PeerFlag.pendingRequest] ∧
      PeerFlag.pendingRequest ∈ (requestStep [PeerFlag.interested] none).1 ∧
      (requestStep [PeerFlag.interested] none).2 = none) :=
  ⟨⟨by decide, by decide, by decide⟩,
    request_step_sets_pending_without_block [PeerFlag.interested]
      (by decide) (by decide) (by decide)⟩

/-- C10: in an Active session whose local flags do not contain
pending_request, an incoming Piece message makes my_state.remove raise
ValueError before on_block_cb runs, so the block data is never delivered to
the scheduler callback and the exception handler closes the session. -/
theorem piece_without_pending_request_closes (myState : List PeerFlag)
    (h : PeerFlag.pendingRequest ∉ myState) :
    handlePieceMessage myState = .closed ∧
    pyRemove myState PeerFlag.pendingRequest = .error "ValueError" := by
  constructor
  · simp [handlePieceMessage, pyRemove, h]
  · simp [pyRemove, h]

theorem piece_without_pending_request_closes_witness :
    (PeerFlag.pendingRequest ∉ [PeerFlag.interested, PeerFlag.stalled]) ∧
    (handlePieceMessage [PeerFlag.interested, PeerFlag.stalled] = .closed ∧
      pyRemove [PeerFlag.interested, PeerFlag.stalled] PeerFlag.pendingRequest =
        .error "ValueError") :=
  ⟨by decide, piece_without_pending_request_closes _ (by decide)⟩

/-- Unpacking the four big-endian bytes of a value below 2^32 gives it back. -/
theorem readU32_u32be {n : Nat} (h : n < 2 ^ 32) : readU32 (u32be n) = n := by
  simp [readU32, u32be]
  omega

/-- C9 amended: decode(encode(M)) = M holds for Interested, Have, Request,
Cancel and Piece (with 32-bit fields); it fails for stall, Unstall and
NotInterested, which define no encode method (AttributeError), and for
BitField, whose encode raises struct.error handing a bitstring.BitArray to
struct.pack's 's' field, so no frame is produced (see the counterexample). -/
theorem message_roundtrip_amended (i b l : Nat) (blk : Bytes)
    (hi : i < 2 ^ 32) (hb : b < 2 ^ 32) (hl : l < 2 ^ 32)
    (hblk : 9 + blk.length < 2 ^ 32) :
    PeerStreamIterator.parse interestedEncode = .ok (some .interested, []) ∧
    PeerStreamIterator.parse (haveEncode i) = .ok (some (.have i), []) ∧
    PeerStreamIterator.parse (requestEncode i b l) = .ok (some (.request i b l), []) ∧
    PeerStreamIterator.parse (cancelEncode i b l) = .ok (some (.cancel i b l), []) ∧
    PeerStreamIterator.parse (pieceEncode i b blk) = .ok (some (.piece i b blk), []) := by
  refine ⟨rfl, ?_, ?_, ?_, ?_⟩
  · have h : PeerStreamIterator.parse (haveEncode i) =
        .ok (some (.have (readU32 (u32be i))), []) := rfl
    rw [h, readU32_u32be hi]
  · have h : PeerStreamIterator.parse (requestEncode i b l) =
        .ok (some (.request (readU32 (u32be i)) (readU32 (u32be b)) (readU32 (u32be l))), []) := rfl
    rw [h, readU32_u32be hi, readU32_u32be hb, readU32_u32be hl]
  · have h : PeerStreamIterator.parse (cancelEncode i b l) =
        .ok (some (.cancel (readU32 (u32be i)) (readU32 (u32be b)) (readU32 (u32be l))), []) := rfl
    rw [h, readU32_u32be hi, readU32_u32be hb, readU32_u32be hl]
  · obtain ⟨x0, x1, x2, x3, hx⟩ : ∃ a c d e, u32be (9 + blk.length) = [a, c, d, e] :=
      ⟨_, _, _, _, rfl⟩
    have hml : readU32 [x0, x1, x2, x3] = 9 + blk.length := by
      rw [← hx]; exact readU32_u32be hblk
    have e1 : pieceEncode i b blk =
        x0 :: x1 :: x2 :: x3 :: 7 :: (u32be i ++ (u32be b ++ blk)) := by
      rw [pieceEncode, hx]; simp
    rw [e1, PeerStreamIterator.parse, hml, if_neg (by omega)]
    have hlen : (x0 :: x1 :: x2 :: x3 :: 7 :: (u32be i ++ (u32be b ++ blk))).length
        = 13 + blk.length := by simp [u32be]; omega
    rw [if_pos (by rw [hlen]; omega)]
    have hdata : (x0 :: x1 :: x2 :: x3 :: 7 :: (u32be i ++ (u32be b ++ blk))).take
        (4 + (9 + blk.length)) = x0 :: x1 :: x2 :: x3 :: 7 :: (u32be i ++ (u32be b ++ blk)) :=
      List.take_of_length_le (by rw [hlen]; omega)
    have hrest : (x0 :: x1 :: x2 :: x3 :: 7 :: (u32be i ++ (u32be b ++ blk))).drop
        (4 + (9 + blk.length)) = ([] : Bytes) :=
      List.drop_eq_nil_of_le (by rw [hlen]; omega)
    rw [hdata, hrest, parseDispatch]
    norm_num
    have ht4 : (x0 :: x1 :: x2 :: x3 :: 7 :: (u32be i ++ (u32be b ++ blk))).take 4
        = [x0, x1, x2, x3] := rfl
    rw [pieceDecode, ht4, hml, if_neg (by omega)]
    have hdata2 : (x0 :: x1 :: x2 :: x3 :: 7 :: (u32be i ++ (u32be b ++ blk))).take
        (9 + blk.length + 4) = x0 :: x1 :: x2 :: x3 :: 7 :: (u32be i ++ (u32be b ++ blk)) :=
      List.take_of_length_le (by rw [hlen]; omega)
    rw [hdata2, hlen, if_pos (by omega)]
    have hf1 : ((x0 :: x1 :: x2 :: x3 :: 7 :: (u32be i ++ (u32be b ++ blk))).drop 5).take 4
        = u32be i := rfl
    have hf2 : ((x0 :: x1 :: x2 :: x3 :: 7 :: (u32be i ++ (u32be b ++ blk))).drop 9).take 4
        = u32be b := rfl
    have harith : 9 + blk.length - 9 = blk.length := by omega
    have hf3 : (x0 :: x1 :: x2 :: x3 :: 7 :: (u32be i ++ (u32be b ++ blk))).drop 13 = blk := rfl
    rw [hf1, hf2, harith, hf3, List.take_length, readU32_u32be hi, readU32_u32be hb]
    rfl

theorem message_roundtrip_amended_witness :
    (3 < 2 ^ 32 ∧ 5 < 2 ^ 32 ∧ 7 < 2 ^ 32 ∧ 9 + ([250, 251] : Bytes).length < 2 ^ 32) ∧
    (PeerStreamIterator.parse interestedEncode = .ok (some .interested, []) ∧
      PeerStreamIterator.parse (haveEncode 3) = .ok (some (.have 3), []) ∧
      PeerStreamIterator.parse (requestEncode 3 5 7) = .ok (some (.request 3 5 7), []) ∧
      PeerStreamIterator.parse (cancelEncode 3 5 7) = .ok (some (.cancel 3 5 7), []) ∧
      PeerStreamIterator.parse (pieceEncode 3 5 [250, 251]) =
        .ok (some (.piece 3 5 [250, 251]), [])) :=
  ⟨⟨by decide, by decide, by decide, by decide⟩,
    message_roundtrip_amended 3 5 7 [250, 251] (by decide) (by decide) (by decide) (by decide)⟩

/-- Piece.next_request keeps the piece's index. -/
theorem pieceNextRequest_index {p p' : PieceM} {b : BlockM}
    (h : pieceNextRequest p = some (b, p')) : p'.index = p.index := by
  unfold pieceNextRequest at h
  cases hb : blocksNextRequest p.blocks with
  | none => rw [hb] at h; exact absurd h (by simp)
  | some x =>
    obtain ⟨blk, bs⟩ := x
    rw [hb] at h
    simp at h
    rw [← h.2]

/-- _next_ongoing only updates a piece in place: the ongoing indices are
unchanged when it returns a block. -/
theorem nextOngoing_map_index (bf : List Bool) (l : List PieceM) :
    ∀ (blk : BlockM) (l' : List PieceM),
      nextOngoing bf l = .ok (some (blk, l')) →
      l'.map PieceM.index = l.map PieceM.index := by
  induction l with
  | nil => intro blk l' h; simp [nextOngoing] at h
  | cons p rest ih =>
    intro blk l' h
    rw [nextOngoing] at h
    cases hbit : bitGet bf p.index with
    | error e => rw [hbit] at h; simp at h
    | ok tb =>
      rw [hbit] at h
      cases tb with
      | false =>
        simp only at h
        cases hrec : nextOngoing bf rest with
        | error e => rw [hrec] at h; simp at h
        | ok orec =>
          rw [hrec] at h
          cases orec with
          | none => simp at h
          | some pr =>
            obtain ⟨blk2, rest'⟩ := pr
            simp at h
            rw [← h.2]
            simp [ih blk2 rest' hrec]
      | true =>
        simp only at h
        cases hpn : pieceNextRequest p with
        | none =>
          rw [hpn] at h
          cases hrec : nextOngoing bf rest with
          | error e => rw [hrec] at h; simp at h
          | ok orec =>
            rw [hrec] at h
            cases orec with
            | none => simp at h
            | some pr =>
              obtain ⟨blk2, rest'⟩ := pr
              simp at h
              rw [← h.2]
              simp [ih blk2 rest' hrec]
        | some pr =>
          obtain ⟨b1, p'⟩ := pr
          rw [hpn] at h
          simp at h
          rw [← h.2]
          simp [pieceNextRequest_index hpn]

/-- Python min with a key returns one of the candidates. -/
theorem minByCountAux_pick (l : List (PieceM × Nat)) :
    ∀ best : PieceM × Nat,
      ∃ x : PieceM × Nat, (x = best ∨ x ∈ l) ∧ minByCountAux best l = x.1 := by
  induction l with
  | nil => intro best; exact ⟨best, Or.inl rfl, rfl⟩
  | cons e rest ih =>
    intro best
    rw [minByCountAux]
    split
    · obtain ⟨x, hx, he⟩ := ih e
      refine ⟨x, ?_, he⟩
      rcases hx with hx | hx
      · exact Or.inr (hx ▸ List.mem_cons_self e rest)
      · exact Or.inr (List.mem_cons_of_mem _ hx)
    · obtain ⟨x, hx, he⟩ := ih best
      refine ⟨x, ?_, he⟩
      rcases hx with hx | hx
      · exact Or.inl hx
      · exact Or.inr (List.mem_cons_of_mem _ hx)

/-- Every key of the piece_count dict is a missing piece. -/
theorem buildCounts_fst_mem (peers : List (Nat × List Bool)) (bf : List Bool)
    (l : List PieceM) :
    ∀ (cs : List (PieceM × Nat)), buildCounts peers bf l = .ok cs →
      ∀ x ∈ cs, x.1 ∈ l := by
  induction l with
  | nil =>
    intro cs h x hx
    simp [buildCounts] at h
    subst h
    simp at hx
  | cons p rest ih =>
    intro cs h x hx
    rw [buildCounts] at h
    cases hbit : bitGet bf p.index with
    | error e => rw [hbit] at h; simp at h
    | ok tb =>
      rw [hbit] at h
      cases tb with
      | false =>
        simp only at h
        have := ih cs h x hx
        simp [this]
      | true =>
        simp only at h
        cases hc : countPeersHaving peers p.index with
        | error e => rw [hc] at h; simp at h
        | ok c =>
          rw [hc] at h
          cases hrec : buildCounts peers bf rest with
          | error e => rw [hrec] at h; simp at h
          | ok cs' =>
            rw [hrec] at h
            simp at h
            subst h
            rcases List.mem_cons.mp hx with hx | hx
            · subst hx; simp
            · exact List.mem_cons_of_mem _ (ih cs' hrec x hx)

/-- _get_rarest_piece returns a missing piece and removes it from missing. -/
theorem getRarestPiece_spec {peers : List (Nat × List Bool)} {bf : List Bool}
    {missing : List PieceM} {rarest : PieceM} {missing' : List PieceM}
    (h : getRarestPiece peers bf missing = .ok (rarest, missing')) :
    rarest ∈ missing ∧ missing' = missing.erase rarest := by
  unfold getRarestPiece at h
  cases hbc : buildCounts peers bf missing with
  | error e => rw [hbc] at h; simp at h
  | ok counts =>
    rw [hbc] at h
    simp only at h
    cases hmin : minByCount counts with
    | none => rw [hmin] at h; simp at h
    | some r =>
      rw [hmin] at h
      simp at h
      obtain ⟨h1, h2⟩ := h
      subst h1
      refine ⟨?_, h2.symm⟩
      cases counts with
      | nil => simp [minByCount] at hmin
      | cons e crest =>
        rw [minByCount] at hmin
        simp at hmin
        obtain ⟨x, hx, he⟩ := minByCountAux_pick crest e
        have hxmem : x ∈ e :: crest := by
          rcases hx with hx | hx
          · exact hx ▸ List.mem_cons_self e crest
          · exact List.mem_cons_of_mem _ hx
        have hxr : x.1 = r := he.symm.trans hmin
        exact hxr ▸ buildCounts_fst_mem peers bf missing (e :: crest) hbc x hxmem

/-- block_received either updates an ongoing piece in place or moves it to the
second component: the indices are preserved as a multiset. -/
theorem receiveIntoOngoing_perm (sha1 : Bytes → Bytes) (pieceIndex blockOffset : Nat)
    (data : Bytes) (l : List PieceM) :
    List.Perm
      ((receiveIntoOngoing sha1 pieceIndex blockOffset data l).1.map PieceM.index ++
        (receiveIntoOngoing sha1 pieceIndex blockOffset data l).2.map PieceM.index)
      (l.map PieceM.index) := by
  induction l with
  | nil => simp [receiveIntoOngoing]
  | cons p rest ih =>
    rw [receiveIntoOngoing]
    split
    · rename_i hidx
      dsimp only
      split
      · split
        · simp only [List.map_cons, List.map]
          exact List.perm_append_singleton _ _
        · simp [pieceReset]
      · simp
    · simp only [List.map_cons, List.cons_append]
      exact (ih.cons p.index)

/-- next_request only moves pieces between the inventories: the indices stay a
permutation and total_pieces is unchanged, on every path including the raising
ones. -/
theorem nextRequest_state (peerId now : Nat) (s : PMState) :
    List.Perm (pmIndices (nextRequest peerId now s).1) (pmIndices s) ∧
    (nextRequest peerId now s).1.totalPieces = s.totalPieces := by
  cases hlk : List.lookup peerId s.peers with
  | none =>
    rw [nextRequest, hlk]
    exact ⟨List.Perm.refl _, rfl⟩
  | some bf =>
    rw [nextRequest, hlk]
    dsimp only
    cases hex : expiredRequests bf now s.pendingBlocks with
    | error e => exact ⟨List.Perm.refl _, rfl⟩
    | ok ob =>
      cases ob with
      | some blk => exact ⟨List.Perm.refl _, rfl⟩
      | none =>
        dsimp only
        cases hon : nextOngoing bf s.ongoingPieces with
        | error e => exact ⟨List.Perm.refl _, rfl⟩
        | ok oo =>
          cases oo with
          | some pr =>
            obtain ⟨blk, ongoing'⟩ := pr
            refine ⟨?_, rfl⟩
            have hmap := nextOngoing_map_index bf s.ongoingPieces blk ongoing' hon
            rw [List.perm_iff_count]
            intro a
            simp [pmIndices, List.count_append, hmap]
          | none =>
            dsimp only
            cases hrar : getRarestPiece s.peers bf s.missingPieces with
            | error e => exact ⟨List.Perm.refl _, rfl⟩
            | ok rp =>
              obtain ⟨rarest, missing'⟩ := rp
              obtain ⟨hmem, hm'⟩ := getRarestPiece_spec hrar
              subst hm'
              have hperm : List.Perm (s.missingPieces.map PieceM.index)
                  ([rarest.index] ++ (s.missingPieces.erase rarest).map PieceM.index) := by
                simpa using (List.perm_cons_erase hmem).map PieceM.index
              dsimp only
              cases hpn : pieceNextRequest rarest with
              | some pr2 =>
                obtain ⟨blk2, rarest'⟩ := pr2
                refine ⟨?_, rfl⟩
                have hidx : rarest'.index = rarest.index := pieceNextRequest_index hpn
                rw [List.perm_iff_count]
                intro a
                have hc := List.perm_iff_count.mp hperm a
                by_cases hab : a = rarest.index <;>
                  simp [pmIndices, List.count_append, List.count_cons, hidx, hab] at hc ⊢ <;>
                  omega
              | none =>
                refine ⟨?_, rfl⟩
                rw [List.perm_iff_count]
                intro a
                have hc := List.perm_iff_count.mp hperm a
                by_cases hab : a = rarest.index <;>
                  simp [pmIndices, List.count_append, List.count_cons, hab] at hc ⊢ <;>
                  omega

/-- block_received keeps the inventories a permutation of the piece indices. -/
theorem blockReceived_perm (sha1 : Bytes → Bytes) (pieceIndex blockOffset : Nat)
    (data : Bytes) (s : PMState) :
    List.Perm (pmIndices (blockReceived sha1 pieceIndex blockOffset data s)) (pmIndices s) := by
  have h := receiveIntoOngoing_perm sha1 pieceIndex blockOffset data s.ongoingPieces
  rw [List.perm_iff_count]
  intro a
  have hc := List.perm_iff_count.mp h a
  simp [List.count_append] at hc
  simp [blockReceived, pmIndices, List.count_append]
  omega

/-- C5: every public PieceManager operation preserves the partition invariant:
each piece index appears in exactly one of missing/ongoing/have and the three
lengths sum to total_pieces (stated as: the concatenated indices are a
permutation of range total_pieces). add_peer, update_peer and remove_peer only
touch the peer dictionary; next_request moves at most one piece from missing
to ongoing; block_received moves at most one piece from ongoing to have or
updates it in place. -/
theorem pieceManager_ops_preserve_partition
    (s : PMState) (hInv : PMInv s)
    (peerId index now pieceIndex blockOffset : Nat)
    (bitfield : List Bool) (data : Bytes) (sha1 : Bytes → Bytes) :
    PMInv (addPeer peerId bitfield s) ∧
    PMInv (updatePeer peerId index s).1 ∧
    PMInv (removePeer peerId s) ∧
    PMInv (nextRequest peerId now s).1 ∧
    PMInv (blockReceived sha1 pieceIndex blockOffset data s) := by
  refine ⟨hInv, ?_, hInv, ?_, ?_⟩
  · unfold updatePeer
    cases List.lookup peerId s.peers with
    | none => exact hInv
    | some bf =>
      dsimp only
      cases bitSet index bf with
      | error e => exact hInv
      | ok bf' => exact hInv
  · have h := nextRequest_state peerId now s
    unfold PMInv at hInv ⊢
    rw [h.2]
    exact h.1.trans hInv
  · exact (blockReceived_perm sha1 pieceIndex blockOffset data s).trans hInv

theorem pieceManager_ops_preserve_partition_witness :
    PMInv pmInvState ∧
    (PMInv (addPeer 1 [true] pmInvState) ∧
      PMInv (updatePeer 1 0 pmInvState).1 ∧
      PMInv (removePeer 1 pmInvState) ∧
      PMInv (nextRequest 1 5 pmInvState).1 ∧
      PMInv (blockReceived (fun _ => []) 0 0 [9] pmInvState)) :=
  ⟨by unfold PMInv; decide,
    pieceManager_ops_preserve_partition pmInvState (by unfold PMInv; decide) 1 0 5 0 0 [true] [9]
      (fun _ => [])⟩
